import Mathlib

/-!
Verification of the Sandbox Lifecycle Controller specification.

The repository ships only end-to-end test suites for the controller
(`agentsandbox/tests/hibernation`, `agentsandbox/tests/persistence`);
the controller itself runs as an external black box behind a Kubernetes
API.  The definitions below are therefore a shallow embedding of the
controller reconstructed from the specification: the Claim data model,
the Managed Resource Set (volume, workload, network endpoint), the
lifecycle state machine Active / Warm / Cold, the resource provisioner
with its dependency guard, teardown, drift reconciliation, the workspace
store adapter (backup / restore), and the public `ensureReady` entry
point.  Every operation additionally returns the list of primitive
resource actions it performed, so that ordering, idempotence (no
creation or deletion calls) and latency (sum of wait costs) are all
derivable from the operational definitions.
-/

namespace Sandbox

/-- Modelled from the spec: the Claim record — the user-facing declaration
of a desired sandbox instance, keyed by a stable immutable `name`;
`storage_size_gb` defaults to 10 when unspecified. -/
structure ClaimSpec where
  name : String
  ns : String := "intelligence-deepagents"
  storage_size_gb : Option Nat := none
  image : String := ""
  queue_stream_name : String := ""
  http_port : Nat := 8080
  health_path : String := "/health"
  ready_path : String := "/ready"
  deriving Repr, DecidableEq

/-- Modelled from the spec: default volume size in storage units (Gi). -/
def defaultStorageGi : Nat := 10

/-- Modelled from the spec: declared capacity of the claim's volume. -/
def volumeCapacityGi (spec : ClaimSpec) : Nat :=
  spec.storage_size_gb.getD defaultStorageGi

/-- Modelled from the spec: the durable volume is named `{name}-workspace`. -/
def volumeName (n : String) : String := n ++ "-workspace"

/-- Modelled from the spec: the stable network endpoint is named `{name}-http`. -/
def endpointName (n : String) : String := n ++ "-http"

/-- Modelled from the spec: the durable volume (PVC); `files` is the
workspace contents it carries, destroyed with the volume. -/
structure Volume where
  name : String
  capacityGi : Nat
  bound : Bool
  files : List (String × String)
  deriving Repr, DecidableEq

/-- Modelled from the spec: the compute workload (pod); `uid` is the
low-level instance identifier that changes across recreation while
`name` is the stable identity. -/
structure Workload where
  name : String
  uid : Nat
  replicas : Nat
  ready : Bool
  deriving Repr, DecidableEq

/-- Modelled from the spec: the stable network endpoint (service). -/
structure Endpoint where
  name : String
  deriving Repr, DecidableEq

/-- Modelled from the spec: all in-cluster and off-cluster state attached
to one claim name: the Managed Resource Set (volume, workload, endpoint),
the heartbeat timestamp, and the object-storage backup, which lives
outside the cluster and survives teardown. -/
structure ClaimState where
  volume : Option Volume := none
  workload : Option Workload := none
  endpoint : Option Endpoint := none
  lastActiveAt : Option Nat := none
  backup : Option (List (String × String)) := none
  deriving Repr, DecidableEq

/-- Modelled from the spec: the error taxonomy of the controller. -/
inductive LifecycleError where
  | ProvisionTimeout
  | DependencyUnsatisfied
  | RestoreInconsistent
  | StaleIdentityConflict
  deriving Repr, DecidableEq

/-- Modelled from the spec: the derived lifecycle state — computed from
presence of Managed Resources, never stored independently. -/
inductive Phase where
  | Active
  | Warm
  | Cold
  deriving Repr, DecidableEq

/-- Modelled from the spec: lifecycle classification of a claim state. -/
def phase (s : ClaimState) : Phase :=
  match s.workload with
  | some w => if 1 ≤ w.replicas then Phase.Active else Phase.Warm
  | none => if s.volume.isSome then Phase.Warm else Phase.Cold

/-- Primitive resource actions recorded by every controller operation;
creation and deletion calls and blocking waits are distinguished so that
churn and latency are observable from the action log. -/
inductive Action where
  | createVolume (name : String) (capacityGi : Nat)
  | waitBound (name : String)
  | restoreFromBackup (name : String)
  | createWorkload (name : String)
  | createEndpoint (name : String)
  | scaleWorkload (name : String) (replicas : Nat)
  | waitReady (name : String)
  | deleteWorkload (name : String)
  | deleteEndpoint (name : String)
  | deleteVolume (name : String)
  | waitRemoved (name : String)
  deriving Repr, DecidableEq

/-- True exactly on resource creation and deletion calls. -/
def Action.isChurn : Action → Bool
  | Action.createVolume _ _ => true
  | Action.createWorkload _ => true
  | Action.createEndpoint _ => true
  | Action.deleteWorkload _ => true
  | Action.deleteEndpoint _ => true
  | Action.deleteVolume _ => true
  | _ => false

/-- True exactly on deletion calls. -/
def Action.isDelete : Action → Bool
  | Action.deleteWorkload _ => true
  | Action.deleteEndpoint _ => true
  | Action.deleteVolume _ => true
  | _ => false

/-- Modelled from the spec: the external world as one reconciliation pass
observes it — whether the volume reaches Bound within the bounded wait
window, whether a known backup can be read, whether the workload passes
its readiness probe, the fresh low-level instance identifier, the current
time, and the duration of each blocking wait. -/
structure Env where
  volumeBinds : Bool := true
  restoreOk : Bool := true
  workloadBecomesReady : Bool := true
  freshUid : Nat := 0
  now : Nat := 0
  bindSeconds : Nat := 0
  restoreSeconds : Nat := 0
  probeSeconds : Nat := 0
  deriving Repr, DecidableEq

/-- Wall-clock cost of one action: only the blocking waits consume time. -/
def actionSeconds (env : Env) : Action → Nat
  | Action.waitBound _ => env.bindSeconds
  | Action.restoreFromBackup _ => env.restoreSeconds
  | Action.waitReady _ => env.probeSeconds
  | _ => 0

/-- Total wall-clock duration of an action log. -/
def duration (env : Env) (log : List Action) : Nat :=
  (log.map (actionSeconds env)).sum

/-- Modelled from the spec: heartbeat `touch` — records the current time
as `last_active_at`. -/
def touch (s : ClaimState) (now : Nat) : ClaimState :=
  { s with lastActiveAt := some now }

/-- Modelled from the spec: soft-expiry test against the soft TTL. -/
def isSoftExpired (s : ClaimState) (now softTtl : Nat) : Bool :=
  match s.lastActiveAt with
  | some t => softTtl < now - t
  | none => false

/-- Modelled from the spec: hard-expiry test against the hard TTL. -/
def isHardExpired (s : ClaimState) (now hardTtl : Nat) : Bool :=
  match s.lastActiveAt with
  | some t => hardTtl < now - t
  | none => false

/-- Modelled from the spec: the provisioner's dependency guard — creating
a workload is rejected with `DependencyUnsatisfied` unless a bound volume
for that claim name exists; never bypassed. -/
def createWorkloadChecked (s : ClaimState) (n : String) (uid : Nat) :
    Except LifecycleError Workload :=
  match s.volume with
  | some v =>
      if v.name = volumeName n ∧ v.bound = true then
        Except.ok { name := n, uid := uid, replicas := 1, ready := false }
      else
        Except.error LifecycleError.DependencyUnsatisfied
  | none => Except.error LifecycleError.DependencyUnsatisfied

/-- Modelled from the spec: full provisioning of the Managed Resource Set
in dependency order — volume first, wait for bound status (failing with
`ProvisionTimeout` if it does not bind within the window), then restore
hydration from the object-storage backup when one exists (absence of a
backup yields a fresh empty workspace; an unreadable known backup fails
with `RestoreInconsistent`), then the compute workload through the
dependency guard, then the network endpoint, then the readiness wait. -/
def provision (spec : ClaimSpec) (env : Env) (s : ClaimState) :
    Except LifecycleError ClaimState × List Action :=
  let vn := volumeName spec.name
  let cap := volumeCapacityGi spec
  let preActs := [Action.createVolume vn cap, Action.waitBound vn]
  if env.volumeBinds then
    let hydrated : Except LifecycleError (List (String × String)) × List Action :=
      match s.backup with
      | some data =>
          if env.restoreOk then (Except.ok data, [Action.restoreFromBackup vn])
          else (Except.error LifecycleError.RestoreInconsistent, [Action.restoreFromBackup vn])
      | none => (Except.ok [], [])
    match hydrated with
    | (Except.ok files, hActs) =>
        let s1 : ClaimState :=
          { s with volume := some { name := vn, capacityGi := cap, bound := true, files := files } }
        match createWorkloadChecked s1 spec.name env.freshUid with
        | Except.ok w =>
            if env.workloadBecomesReady then
              (Except.ok { s1 with
                  workload := some { w with ready := true },
                  endpoint := some { name := endpointName spec.name } },
               preActs ++ hActs ++
                 [Action.createWorkload spec.name,
                  Action.createEndpoint (endpointName spec.name),
                  Action.waitReady spec.name])
            else
              (Except.error LifecycleError.ProvisionTimeout,
               preActs ++ hActs ++ [Action.createWorkload spec.name, Action.waitReady spec.name])
        | Except.error e => (Except.error e, preActs ++ hActs)
    | (Except.error e, hActs) => (Except.error e, preActs ++ hActs)
  else
    (Except.error LifecycleError.ProvisionTimeout, preActs)

/-- Modelled from the spec: cascading teardown — deletes workload, network
endpoint and volume in reverse dependency order, then blocks on removal
confirmation before returning; the off-cluster backup is the only state
that survives. -/
def teardown (n : String) (s : ClaimState) : ClaimState × List Action :=
  let wActs := match s.workload with
    | some w => [Action.deleteWorkload w.name]
    | none => []
  let eActs := match s.endpoint with
    | some e => [Action.deleteEndpoint e.name]
    | none => []
  let vActs := match s.volume with
    | some v => [Action.deleteVolume v.name]
    | none => []
  ({ volume := none, workload := none, endpoint := none,
     lastActiveAt := none, backup := s.backup },
   wActs ++ eActs ++ vActs ++ [Action.waitRemoved n])

/-- Modelled from the spec: soft-expiry transition Active→Warm — scale the
workload to zero replicas, retaining volume and network identity. -/
def scaleToZero (s : ClaimState) : ClaimState × List Action :=
  match s.workload with
  | some w =>
      ({ s with workload := some { w with replicas := 0, ready := false } },
       [Action.scaleWorkload w.name 0])
  | none => (s, [])

/-- External event: the workload instance is terminated (pod deleted)
while the claim, its volume and its endpoint remain. -/
def workloadTerminated (s : ClaimState) : ClaimState :=
  { s with workload := none }

/-- A write into the claim's workspace, performed by the running workload;
newest entry shadows older entries for the same path. -/
def writeFile (s : ClaimState) (p d : String) : ClaimState :=
  match s.volume with
  | some v => { s with volume := some { v with files := (p, d) :: v.files } }
  | none => s

/-- Read a path from the workspace volume. -/
def readFile (s : ClaimState) (p : String) : Option String :=
  match s.volume with
  | some v => v.files.lookup p
  | none => none

/-- Read a path from the object-storage backup. -/
def readBackup (s : ClaimState) (p : String) : Option String :=
  match s.backup with
  | some data => data.lookup p
  | none => none

/-- Modelled from the spec: the backup sidecar running beside the workload
periodically snapshots the workspace volume into object storage; the
controller only trusts the result, it does not schedule it. -/
def sidecarBackup (s : ClaimState) : ClaimState :=
  match s.volume with
  | some v => { s with backup := some v.files }
  | none => s

/-- Modelled from the spec: a claim state is consistent with its declared
spec when the bound volume, the active ready workload and the network
endpoint all exist under their stable derived names. -/
def consistent (spec : ClaimSpec) (s : ClaimState) : Bool :=
  (match s.volume with
   | some v => v.name == volumeName spec.name && v.bound
   | none => false) &&
  (match s.workload with
   | some w => w.name == spec.name && decide (1 ≤ w.replicas) && w.ready
   | none => false) &&
  (match s.endpoint with
   | some e => e.name == endpointName spec.name
   | none => false)

/-- Modelled from the spec: self-healing of a missing volume — a
workload may not outlive its volume dependency, so it is stopped first;
the volume is recreated with the originally declared size. -/
def healVolume (spec : ClaimSpec) (env : Env) (s : ClaimState) :
    ClaimState × List Action :=
  match s.volume with
  | some _ => (s, [])
  | none =>
      let stop : List Action :=
        match s.workload with
        | some w => [Action.deleteWorkload w.name]
        | none => []
      ({ s with workload := none,
                volume := some { name := volumeName spec.name,
                                 capacityGi := volumeCapacityGi spec,
                                 bound := env.volumeBinds, files := [] } },
       stop ++ [Action.createVolume (volumeName spec.name) (volumeCapacityGi spec),
                Action.waitBound (volumeName spec.name)])

/-- Modelled from the spec: self-healing of a terminated workload —
recreated only through the dependency guard, under the same stable name. -/
def healWorkload (spec : ClaimSpec) (env : Env) (s : ClaimState) :
    ClaimState × List Action :=
  match s.workload with
  | some _ => (s, [])
  | none =>
      match createWorkloadChecked s spec.name env.freshUid with
      | Except.ok w =>
          ({ s with workload := some { w with ready := env.workloadBecomesReady } },
           [Action.createWorkload spec.name])
      | Except.error _ => (s, [])

/-- Modelled from the spec: self-healing of a missing network endpoint. -/
def healEndpoint (spec : ClaimSpec) (s : ClaimState) :
    ClaimState × List Action :=
  match s.endpoint with
  | some _ => (s, [])
  | none =>
      ({ s with endpoint := some { name := endpointName spec.name } },
       [Action.createEndpoint (endpointName spec.name)])

/-- Modelled from the spec: drift detection and self-healing — an
already-consistent state is a no-op; otherwise only the missing pieces
are recreated. -/
def reconcile (spec : ClaimSpec) (env : Env) (s : ClaimState) :
    ClaimState × List Action :=
  if consistent spec s then (s, [])
  else
    let a := healVolume spec env s
    let b := healWorkload spec env a.1
    let c := healEndpoint spec b.1
    (c.1, a.2 ++ b.2 ++ c.2)

/-- Modelled from the spec: the public `ensure_ready` operation — returns
a stable endpoint descriptor or a typed error, never a partial state as
success.  If the full resource set exists and the workload is active it
returns immediately; if the workload is scaled to zero or terminated it
resumes it against the retained bound volume with no restore; if nothing
exists it provisions in dependency order.  A successful call refreshes
the heartbeat. -/
def ensureReady (spec : ClaimSpec) (env : Env) (s : ClaimState) :
    Except LifecycleError Endpoint × ClaimState × List Action :=
  match s.volume with
  | some v =>
      if v.bound then
        match s.workload with
        | some w =>
            if 1 ≤ w.replicas ∧ w.ready = true ∧
               s.endpoint = some { name := endpointName spec.name } then
              (Except.ok { name := endpointName spec.name }, touch s env.now, [])
            else
              if env.workloadBecomesReady then
                (Except.ok { name := endpointName spec.name },
                 touch { s with
                     workload := some { w with replicas := 1, ready := true },
                     endpoint := some { name := endpointName spec.name } } env.now,
                 [Action.scaleWorkload spec.name 1, Action.waitReady spec.name])
              else
                (Except.error LifecycleError.ProvisionTimeout, s,
                 [Action.scaleWorkload spec.name 1, Action.waitReady spec.name])
        | none =>
            match createWorkloadChecked s spec.name env.freshUid with
            | Except.ok w =>
                if env.workloadBecomesReady then
                  (Except.ok { name := endpointName spec.name },
                   touch { s with
                       workload := some { w with ready := true },
                       endpoint := some { name := endpointName spec.name } } env.now,
                   [Action.createWorkload spec.name, Action.waitReady spec.name])
                else
                  (Except.error LifecycleError.ProvisionTimeout, s,
                   [Action.createWorkload spec.name, Action.waitReady spec.name])
            | Except.error e => (Except.error e, s, [])
      else
        (Except.error LifecycleError.DependencyUnsatisfied, s, [])
  | none =>
      match provision spec env s with
      | (Except.ok s1, acts) =>
          (Except.ok { name := endpointName spec.name }, touch s1 env.now, acts)
      | (Except.error e, acts) => (Except.error e, s, acts)

/-- The empty initial world: no claim resources, no backup. -/
def initialState : ClaimState := {}

/-- Modelled from the spec: identity validation after a resurrection — a
resurrection whose workload or endpoint name differs from the stable
derived identity is a `StaleIdentityConflict`, never accepted quietly. -/
def identityCheck (expected : String) (s : ClaimState) : Except LifecycleError Unit :=
  match s.workload, s.endpoint with
  | some w, some e =>
      if w.name = expected ∧ e.name = endpointName expected then Except.ok ()
      else Except.error LifecycleError.StaleIdentityConflict
  | _, _ => Except.error LifecycleError.StaleIdentityConflict

/-- The dependency invariant: a compute workload exists only while a bound
volume exists. -/
def depInvariant (s : ClaimState) : Prop :=
  ∀ w, s.workload = some w → ∃ v, s.volume = some v ∧ v.bound = true

/-- States reachable from the empty world through the lifecycle
operations of the controller and the benign external events (workload
termination, workspace writes, sidecar backups, heartbeats). -/
inductive Reachable : ClaimState → Prop where
  | init : Reachable initialState
  | ensure (spec : ClaimSpec) (env : Env) {s : ClaimState} :
      Reachable s → Reachable (ensureReady spec env s).2.1
  | recon (spec : ClaimSpec) (env : Env) {s : ClaimState} :
      Reachable s → Reachable (reconcile spec env s).1
  | softExpire {s : ClaimState} : Reachable s → Reachable (scaleToZero s).1
  | delete (n : String) {s : ClaimState} : Reachable s → Reachable (teardown n s).1
  | terminated {s : ClaimState} : Reachable s → Reachable (workloadTerminated s)
  | write (p d : String) {s : ClaimState} : Reachable s → Reachable (writeFile s p d)
  | backedUp {s : ClaimState} : Reachable s → Reachable (sidecarBackup s)
  | heartbeat (t : Nat) {s : ClaimState} : Reachable s → Reachable (touch s t)

/-- Modelled from the spec (inferred from `test_04d_resurrection_test`):
one Warm resurrection cycle — the workload writes a file, the sidecar
snapshots the workspace to object storage, the workload instance is
terminated, and `ensureReady` resumes the claim. -/
def warmCycle (spec : ClaimSpec) (env : Env) (pd : String × String)
    (s : ClaimState) : ClaimState :=
  (ensureReady spec env (workloadTerminated (sidecarBackup (writeFile s pd.1 pd.2)))).2.1

/-- A sequence of consecutive Warm resurrection cycles. -/
def runCycles (spec : ClaimSpec) (env : Env) (writes : List (String × String))
    (s : ClaimState) : ClaimState :=
  writes.foldl (fun t pd => warmCycle spec env pd t) s

theorem lookup_cons_self (p d : String) (l : List (String × String)) :
    ((p, d) :: l).lookup p = some d := by
  simp [List.lookup]

theorem lookup_cons_ne {p q : String} (d : String) (l : List (String × String))
    (h : p ≠ q) : ((q, d) :: l).lookup p = l.lookup p := by
  have hb : (p == q) = false := beq_eq_false_iff_ne.mpr h
  simp [List.lookup, hb]

theorem provision_spec_ok {spec : ClaimSpec} {env : Env} {s : ClaimState}
    (hb : env.volumeBinds = true) (hr : env.restoreOk = true)
    (hw : env.workloadBecomesReady = true) :
    provision spec env s =
      (Except.ok { s with
          volume := some { name := volumeName spec.name,
                           capacityGi := volumeCapacityGi spec,
                           bound := true, files := s.backup.getD [] },
          workload := some { name := spec.name, uid := env.freshUid,
                             replicas := 1, ready := true },
          endpoint := some { name := endpointName spec.name } },
       [Action.createVolume (volumeName spec.name) (volumeCapacityGi spec),
        Action.waitBound (volumeName spec.name)] ++
       (match s.backup with
        | some _ => [Action.restoreFromBackup (volumeName spec.name)]
        | none => []) ++
       [Action.createWorkload spec.name,
        Action.createEndpoint (endpointName spec.name),
        Action.waitReady spec.name]) := by
  cases hbk : s.backup with
  | none => simp [provision, hb, hr, hw, hbk, createWorkloadChecked]
  | some data => simp [provision, hb, hr, hw, hbk, createWorkloadChecked]

theorem provision_ok_cases {spec : ClaimSpec} {env : Env} {s s1 : ClaimState}
    (h : (provision spec env s).1 = Except.ok s1) :
    env.volumeBinds = true ∧ env.workloadBecomesReady = true ∧
    s1 = { s with
        volume := some { name := volumeName spec.name,
                         capacityGi := volumeCapacityGi spec,
                         bound := true, files := s.backup.getD [] },
        workload := some { name := spec.name, uid := env.freshUid,
                           replicas := 1, ready := true },
        endpoint := some { name := endpointName spec.name } } := by
  by_cases hb : env.volumeBinds
  · by_cases hw : env.workloadBecomesReady
    · refine ⟨hb, hw, ?_⟩
      cases hbk : s.backup with
      | none =>
          simp [provision, hb, hw, hbk, createWorkloadChecked] at h
          simp [← h]
      | some data =>
          by_cases hr : env.restoreOk
          · simp [provision, hb, hw, hr, hbk, createWorkloadChecked] at h
            simp [← h]
          · simp [provision, hb, hbk, eq_false_of_ne_true hr] at h
    · cases hbk : s.backup with
      | none =>
          simp [provision, hb, hbk, createWorkloadChecked,
                eq_false_of_ne_true hw] at h
      | some data =>
          by_cases hr : env.restoreOk
          · simp [provision, hb, hbk, hr, createWorkloadChecked,
                  eq_false_of_ne_true hw] at h
          · simp [provision, hb, hbk, eq_false_of_ne_true hr] at h
  · simp [provision, eq_false_of_ne_true hb] at h

theorem createWorkloadChecked_ok {s : ClaimState} {n : String} {uid : Nat}
    {w : Workload} (h : createWorkloadChecked s n uid = Except.ok w) :
    ∃ v, s.volume = some v ∧ v.bound = true ∧ v.name = volumeName n ∧
      w = { name := n, uid := uid, replicas := 1, ready := false } := by
  cases hv : s.volume with
  | none => simp [createWorkloadChecked, hv] at h
  | some v =>
      by_cases hc : v.name = volumeName n ∧ v.bound = true
      · refine ⟨v, rfl, hc.2, hc.1, ?_⟩
        simp [createWorkloadChecked, hv, hc] at h
        exact h.symm
      · simp [createWorkloadChecked, hv, hc] at h

theorem ensureReady_inv (spec : ClaimSpec) (env : Env) {s : ClaimState}
    (hs : depInvariant s) : depInvariant (ensureReady spec env s).2.1 := by
  cases hv : s.volume with
  | none =>
      rcases hp : provision spec env s with ⟨fst, acts⟩
      cases fst with
      | ok s1 =>
          have h1 : (provision spec env s).1 = Except.ok s1 := by rw [hp]
          obtain ⟨hb2, hw2, hshape⟩ := provision_ok_cases h1
          have hres : (ensureReady spec env s).2.1 = touch s1 env.now := by
            simp [ensureReady, hv, hp]
          rw [hres, hshape]
          intro w hw
          exact ⟨{ name := volumeName spec.name, capacityGi := volumeCapacityGi spec,
                   bound := true, files := s.backup.getD [] }, by simp [touch], rfl⟩
      | error e =>
          have hres : (ensureReady spec env s).2.1 = s := by
            simp [ensureReady, hv, hp]
          rw [hres]; exact hs
  | some v =>
      by_cases hvb : v.bound = true
      · have hvol : (ensureReady spec env s).2.1.volume = some v := by
          cases hw : s.workload with
          | some w =>
              by_cases hcond : 1 ≤ w.replicas ∧ w.ready = true ∧
                  s.endpoint = some { name := endpointName spec.name }
              · simp [ensureReady, hv, hw, hvb, hcond, touch]
              · by_cases hr : env.workloadBecomesReady
                · simp [ensureReady, hv, hw, hvb, hcond, hr, touch]
                · simp [ensureReady, hv, hw, hvb, hcond,
                        eq_false_of_ne_true hr]
          | none =>
              cases hc : createWorkloadChecked s spec.name env.freshUid with
              | ok w =>
                  by_cases hr : env.workloadBecomesReady
                  · simp [ensureReady, hv, hw, hvb, hc, hr, touch]
                  · simp [ensureReady, hv, hw, hvb, hc,
                          eq_false_of_ne_true hr]
              | error e => simp [ensureReady, hv, hw, hvb, hc]
        intro w' hw'
        exact ⟨v, hvol, hvb⟩
      · have hres : (ensureReady spec env s).2.1 = s := by
          simp [ensureReady, hv, eq_false_of_ne_true hvb]
        rw [hres]; exact hs

theorem healVolume_inv (spec : ClaimSpec) (env : Env) {s : ClaimState}
    (hs : depInvariant s) : depInvariant (healVolume spec env s).1 := by
  cases hv : s.volume with
  | some v =>
      have : (healVolume spec env s).1 = s := by simp [healVolume, hv]
      rw [this]; exact hs
  | none =>
      intro w hw
      simp [healVolume, hv] at hw

theorem healWorkload_inv (spec : ClaimSpec) (env : Env) {s : ClaimState}
    (hs : depInvariant s) : depInvariant (healWorkload spec env s).1 := by
  cases hw : s.workload with
  | some w =>
      have : (healWorkload spec env s).1 = s := by simp [healWorkload, hw]
      rw [this]; exact hs
  | none =>
      cases hc : createWorkloadChecked s spec.name env.freshUid with
      | ok w =>
          obtain ⟨v, hv, hvb, _, _⟩ := createWorkloadChecked_ok hc
          intro w' hw'
          exact ⟨v, by simp [healWorkload, hw, hc, hv], hvb⟩
      | error e =>
          have : (healWorkload spec env s).1 = s := by
            simp [healWorkload, hw, hc]
          rw [this]; exact hs

theorem healEndpoint_inv (spec : ClaimSpec) {s : ClaimState}
    (hs : depInvariant s) : depInvariant (healEndpoint spec s).1 := by
  intro w hw
  cases he : s.endpoint with
  | some e =>
      have h2 : (healEndpoint spec s).1 = s := by simp [healEndpoint, he]
      rw [h2] at hw ⊢
      exact hs w hw
  | none =>
      simp [healEndpoint, he] at hw
      obtain ⟨v, hv, hvb⟩ := hs w (by simpa using hw)
      exact ⟨v, by simp [healEndpoint, he, hv], hvb⟩

theorem reconcile_inv (spec : ClaimSpec) (env : Env) {s : ClaimState}
    (hs : depInvariant s) : depInvariant (reconcile spec env s).1 := by
  by_cases hc : consistent spec s
  · have : (reconcile spec env s).1 = s := by simp [reconcile, hc]
    rw [this]; exact hs
  · have : (reconcile spec env s).1 =
        (healEndpoint spec (healWorkload spec env (healVolume spec env s).1).1).1 := by
      simp [reconcile, hc]
    rw [this]
    exact healEndpoint_inv spec (healWorkload_inv spec env (healVolume_inv spec env hs))

theorem scaleToZero_inv {s : ClaimState} (hs : depInvariant s) :
    depInvariant (scaleToZero s).1 := by
  cases hw : s.workload with
  | some w =>
      intro w' hw'
      obtain ⟨v, hv, hvb⟩ := hs w hw
      exact ⟨v, by simp [scaleToZero, hw, hv], hvb⟩
  | none =>
      have : (scaleToZero s).1 = s := by simp [scaleToZero, hw]
      rw [this]; exact hs

theorem teardown_inv (n : String) (s : ClaimState) :
    depInvariant (teardown n s).1 := by
  intro w hw
  simp [teardown] at hw

theorem workloadTerminated_inv {s : ClaimState} :
    depInvariant (workloadTerminated s) := by
  intro w hw
  simp [workloadTerminated] at hw

theorem writeFile_inv {s : ClaimState} (p d : String)
    (hs : depInvariant s) : depInvariant (writeFile s p d) := by
  cases hv : s.volume with
  | some v =>
      intro w hw
      obtain ⟨v0, hv0, hvb⟩ := hs w (by simpa [writeFile, hv] using hw)
      rw [hv] at hv0
      cases hv0
      exact ⟨{ v with files := (p, d) :: v.files }, by simp [writeFile, hv], hvb⟩
  | none =>
      have : writeFile s p d = s := by simp [writeFile, hv]
      rw [this]; exact hs

theorem sidecarBackup_inv {s : ClaimState} (hs : depInvariant s) :
    depInvariant (sidecarBackup s) := by
  cases hv : s.volume with
  | some v =>
      intro w hw
      obtain ⟨v0, hv0, hvb⟩ := hs w (by simpa [sidecarBackup, hv] using hw)
      exact ⟨v0, by simp [sidecarBackup, hv]; rw [hv] at hv0; simpa using hv0, hvb⟩
  | none =>
      have : sidecarBackup s = s := by simp [sidecarBackup, hv]
      rw [this]; exact hs

theorem touch_inv {s : ClaimState} (t : Nat) (hs : depInvariant s) :
    depInvariant (touch s t) := by
  intro w hw
  obtain ⟨v, hv, hvb⟩ := hs w (by simpa [touch] using hw)
  exact ⟨v, by simpa [touch] using hv, hvb⟩

theorem reachable_inv : ∀ s : ClaimState, Reachable s → depInvariant s := by
  intro s h
  induction h with
  | init => intro w hw; simp [initialState] at hw
  | ensure spec env _ ih => exact ensureReady_inv spec env ih
  | recon spec env _ ih => exact reconcile_inv spec env ih
  | softExpire _ ih => exact scaleToZero_inv ih
  | delete n _ _ => exact teardown_inv n _
  | terminated _ _ => exact workloadTerminated_inv
  | write p d _ ih => exact writeFile_inv p d ih
  | backedUp _ ih => exact sidecarBackup_inv ih
  | heartbeat t _ ih => exact touch_inv t ih

theorem ensureReady_immediate {spec : ClaimSpec} {env : Env} {s : ClaimState}
    {v : Volume} {w : Workload}
    (hv : s.volume = some v) (hvb : v.bound = true) (hw : s.workload = some w)
    (hcond : 1 ≤ w.replicas ∧ w.ready = true ∧
        s.endpoint = some { name := endpointName spec.name }) :
    ensureReady spec env s =
      (Except.ok { name := endpointName spec.name }, touch s env.now, []) := by
  simp [ensureReady, hv, hvb, hw, hcond]

theorem ensureReady_scale {spec : ClaimSpec} {env : Env} {s : ClaimState}
    {v : Volume} {w : Workload}
    (hv : s.volume = some v) (hvb : v.bound = true) (hw : s.workload = some w)
    (hnr : ¬(1 ≤ w.replicas ∧ w.ready = true ∧
        s.endpoint = some { name := endpointName spec.name }))
    (hready : env.workloadBecomesReady = true) :
    ensureReady spec env s =
      (Except.ok { name := endpointName spec.name },
       touch { s with workload := some { w with replicas := 1, ready := true },
                      endpoint := some { name := endpointName spec.name } } env.now,
       [Action.scaleWorkload spec.name 1, Action.waitReady spec.name]) := by
  simp [ensureReady, hv, hvb, hw, hnr, hready]

theorem ensureReady_recreate {spec : ClaimSpec} {env : Env} {s : ClaimState}
    {v : Volume}
    (hv : s.volume = some v) (hvb : v.bound = true)
    (hvn : v.name = volumeName spec.name) (hw : s.workload = none)
    (hready : env.workloadBecomesReady = true) :
    ensureReady spec env s =
      (Except.ok { name := endpointName spec.name },
       touch { s with workload := some { name := spec.name, uid := env.freshUid,
                                         replicas := 1, ready := true },
                      endpoint := some { name := endpointName spec.name } } env.now,
       [Action.createWorkload spec.name, Action.waitReady spec.name]) := by
  simp [ensureReady, hv, hvb, hw, hready, createWorkloadChecked, hvn]

theorem ensureReady_cold {spec : ClaimSpec} {env : Env} {s : ClaimState}
    (hv : s.volume = none)
    (hb : env.volumeBinds = true) (hr : env.restoreOk = true)
    (hready : env.workloadBecomesReady = true) :
    ensureReady spec env s =
      (Except.ok { name := endpointName spec.name },
       touch { s with
           volume := some { name := volumeName spec.name,
                            capacityGi := volumeCapacityGi spec,
                            bound := true, files := s.backup.getD [] },
           workload := some { name := spec.name, uid := env.freshUid,
                              replicas := 1, ready := true },
           endpoint := some { name := endpointName spec.name } } env.now,
       [Action.createVolume (volumeName spec.name) (volumeCapacityGi spec),
        Action.waitBound (volumeName spec.name)] ++
       (match s.backup with
        | some _ => [Action.restoreFromBackup (volumeName spec.name)]
        | none => []) ++
       [Action.createWorkload spec.name,
        Action.createEndpoint (endpointName spec.name),
        Action.waitReady spec.name]) := by
  simp [ensureReady, hv, provision_spec_ok hb hr hready]

/-- Claim C1: at every reachable state of the lifecycle the compute
workload never exists (hence is never running or ready) while the claim's
volume is unbound or absent; an attempt to create a workload without a
bound volume for that claim name is rejected with `DependencyUnsatisfied`
(the workload is never created); and every provisioning pass performs
volume creation and the bound wait strictly before every other action, in
particular before workload creation. -/
theorem claim_C1 :
    (∀ s : ClaimState, Reachable s →
        ∀ w, s.workload = some w → ∃ v, s.volume = some v ∧ v.bound = true) ∧
    (∀ (s : ClaimState) (n : String) (uid : Nat),
        (∀ v, s.volume = some v → ¬(v.name = volumeName n ∧ v.bound = true)) →
        createWorkloadChecked s n uid =
          Except.error LifecycleError.DependencyUnsatisfied) ∧
    (∀ (spec : ClaimSpec) (env : Env) (s : ClaimState),
        (provision spec env s).2.take 2 =
          [Action.createVolume (volumeName spec.name) (volumeCapacityGi spec),
           Action.waitBound (volumeName spec.name)]) := by
  refine ⟨fun s h => reachable_inv s h, ?_, ?_⟩
  · intro s n uid h
    cases hv : s.volume with
    | none => simp [createWorkloadChecked, hv]
    | some v => simp [createWorkloadChecked, hv, h v hv]
  · intro spec env s
    by_cases hb : env.volumeBinds
    · cases hbk : s.backup with
      | none =>
          by_cases hw : env.workloadBecomesReady
          · simp [provision, hb, hbk, hw, createWorkloadChecked]
          · simp [provision, hb, hbk, eq_false_of_ne_true hw,
                  createWorkloadChecked]
      | some data =>
          by_cases hr : env.restoreOk
          · by_cases hw : env.workloadBecomesReady
            · simp [provision, hb, hbk, hr, hw, createWorkloadChecked]
            · simp [provision, hb, hbk, hr, eq_false_of_ne_true hw,
                    createWorkloadChecked]
          · simp [provision, hb, hbk, eq_false_of_ne_true hr]
    · simp [provision, eq_false_of_ne_true hb]

/-- Witness for C1: concretely, workload creation against the empty world
is rejected with `DependencyUnsatisfied`. -/
theorem claim_C1_witness :
    createWorkloadChecked initialState "sbx" 0 =
      Except.error LifecycleError.DependencyUnsatisfied :=
  claim_C1.2.1 initialState "sbx" 0
    (fun v hv => by simp [initialState] at hv)

/-- Claim C3: a claim created with `storage_size_gb = S`, for
`S ∈ {5, 10, 20, 100}`, provisions its volume with declared capacity
exactly `S` Gi, and a claim with `storage_size_gb` unspecified provisions
the default 10 Gi. -/
theorem claim_C3 (spec : ClaimSpec) (env : Env) (S : Nat)
    (_hS : S = 5 ∨ S = 10 ∨ S = 20 ∨ S = 100)
    (hb : env.volumeBinds = true) (hr : env.restoreOk = true)
    (hw : env.workloadBecomesReady = true) :
    (∃ s1 v,
      (provision { spec with storage_size_gb := some S } env initialState).1 =
        Except.ok s1 ∧ s1.volume = some v ∧ v.capacityGi = S) ∧
    (∃ s1 v,
      (provision { spec with storage_size_gb := none } env initialState).1 =
        Except.ok s1 ∧ s1.volume = some v ∧ v.capacityGi = 10) := by
  constructor
  · rw [provision_spec_ok hb hr hw]
    exact ⟨_, _, rfl, rfl, by simp [volumeCapacityGi]⟩
  · rw [provision_spec_ok hb hr hw]
    exact ⟨_, _, rfl, rfl, by simp [volumeCapacityGi, defaultStorageGi]⟩

/-- Witness for C3: a 20 Gi claim under the benign environment. -/
theorem claim_C3_witness :
    ∃ s1 v,
      (provision { name := "sbx", storage_size_gb := some 20 } {} initialState).1 =
        Except.ok s1 ∧ s1.volume = some v ∧ v.capacityGi = 20 := by
  have h := claim_C3 { name := "sbx" } {} 20 (by decide) rfl rfl rfl
  exact h.1

/-- Claim C4: an explicit delete (equally hard-TTL expiry) transitions the
claim to Cold — the whole Managed Resource Set is removed, the volume is
destroyed so only the object-storage backup survives, and the operation
performs only deletions followed by a final blocking wait for confirmed
removal before returning. -/
theorem claim_C4 (n : String) (s : ClaimState) :
    phase (teardown n s).1 = Phase.Cold ∧
    (teardown n s).1.volume = none ∧
    (teardown n s).1.workload = none ∧
    (teardown n s).1.endpoint = none ∧
    (teardown n s).1.backup = s.backup ∧
    (∃ pre, (teardown n s).2 = pre ++ [Action.waitRemoved n] ∧
      ∀ a ∈ pre, a.isDelete = true) := by
  refine ⟨by simp [teardown, phase], by simp [teardown], by simp [teardown],
          by simp [teardown], by simp [teardown], ?_⟩
  refine ⟨(match s.workload with
           | some w => [Action.deleteWorkload w.name]
           | none => []) ++
          (match s.endpoint with
           | some e => [Action.deleteEndpoint e.name]
           | none => []) ++
          (match s.volume with
           | some v => [Action.deleteVolume v.name]
           | none => []), ?_, ?_⟩
  · simp [teardown]
  · cases hw : s.workload <;> cases he : s.endpoint <;> cases hv : s.volume <;>
      simp [hw, he, hv, Action.isDelete]

/-- A concrete claim specification used by the witnesses. -/
def sampleSpec : ClaimSpec := { name := "sbx" }

/-- A concrete benign environment used by the witnesses. -/
def sampleEnv : Env :=
  { freshUid := 42, now := 100, bindSeconds := 2, restoreSeconds := 30,
    probeSeconds := 5 }

/-- A concrete bound volume used by the witnesses. -/
def sampleVolume : Volume :=
  { name := "sbx-workspace", capacityGi := 10, bound := true,
    files := [("f.txt", "hello")] }

/-- A concrete active workload used by the witnesses. -/
def sampleWorkload : Workload :=
  { name := "sbx", uid := 7, replicas := 1, ready := true }

/-- A concrete fully provisioned Active claim state used by the witnesses. -/
def sampleActive : ClaimState :=
  { volume := some sampleVolume, workload := some sampleWorkload,
    endpoint := some { name := "sbx-http" } }

/-- Claim C2: every Warm→Active resumption (whether the workload was
scaled to zero or its instance was terminated) and every Cold→Active
resumption of a claim named `N` yields the network endpoint `{N}-http`
and a workload whose name equals the pre-transition workload name
exactly, while the Cold path assigns a fresh low-level instance
identifier; the resurrected identity always passes `identityCheck`, so a
`StaleIdentityConflict` is never produced by a resurrection. -/
theorem claim_C2 (spec : ClaimSpec) (env : Env) (s : ClaimState)
    (v : Volume) (w0 : Workload)
    (hv : s.volume = some v) (hvb : v.bound = true)
    (hvn : v.name = volumeName spec.name)
    (hw : s.workload = some w0) (hwn : w0.name = spec.name)
    (hready : env.workloadBecomesReady = true)
    (hbinds : env.volumeBinds = true) (hrestore : env.restoreOk = true) :
    ((ensureReady spec env (scaleToZero s).1).1 =
        Except.ok { name := endpointName spec.name } ∧
     (∃ w, (ensureReady spec env (scaleToZero s).1).2.1.workload = some w ∧
        w.name = w0.name) ∧
     identityCheck spec.name (ensureReady spec env (scaleToZero s).1).2.1 =
        Except.ok ()) ∧
    ((ensureReady spec env (workloadTerminated s)).1 =
        Except.ok { name := endpointName spec.name } ∧
     (∃ w, (ensureReady spec env (workloadTerminated s)).2.1.workload = some w ∧
        w.name = w0.name ∧ w.uid = env.freshUid) ∧
     identityCheck spec.name (ensureReady spec env (workloadTerminated s)).2.1 =
        Except.ok ()) ∧
    ((ensureReady spec env (teardown spec.name s).1).1 =
        Except.ok { name := endpointName spec.name } ∧
     (∃ w, (ensureReady spec env (teardown spec.name s).1).2.1.workload = some w ∧
        w.name = w0.name ∧ w.uid = env.freshUid) ∧
     identityCheck spec.name (ensureReady spec env (teardown spec.name s).1).2.1 =
        Except.ok ()) := by
  have hs1 : (scaleToZero s).1 =
      { s with workload := some { w0 with replicas := 0, ready := false } } := by
    simp [scaleToZero, hw]
  have e1 := @ensureReady_scale spec env
    { s with workload := some { w0 with replicas := 0, ready := false } }
    v { w0 with replicas := 0, ready := false }
    (by simpa using hv) hvb (by simp) (by simp) hready
  have e2 := @ensureReady_recreate spec env (workloadTerminated s) v
    (by simpa [workloadTerminated] using hv) hvb hvn
    (by simp [workloadTerminated]) hready
  have ht : (teardown spec.name s).1 =
      { volume := none, workload := none, endpoint := none,
        lastActiveAt := none, backup := s.backup } := by
    simp [teardown]
  have e3 := @ensureReady_cold spec env
    { volume := none, workload := none, endpoint := none,
      lastActiveAt := none, backup := s.backup }
    rfl hbinds hrestore hready
  refine ⟨⟨?_, ?_, ?_⟩, ⟨?_, ?_, ?_⟩, ⟨?_, ?_, ?_⟩⟩
  · rw [hs1, e1]
  · rw [hs1, e1]
    exact ⟨{ w0 with replicas := 1, ready := true }, by simp [touch], rfl⟩
  · rw [hs1, e1]
    simp [identityCheck, touch, hwn]
  · rw [e2]
  · rw [e2]
    exact ⟨{ name := spec.name, uid := env.freshUid, replicas := 1,
             ready := true }, by simp [touch], hwn.symm, rfl⟩
  · rw [e2]
    simp [identityCheck, touch]
  · rw [ht, e3]
  · rw [ht, e3]
    exact ⟨{ name := spec.name, uid := env.freshUid, replicas := 1,
             ready := true }, by simp [touch], hwn.symm, rfl⟩
  · rw [ht, e3]
    simp [identityCheck, touch]

/-- Witness for C2: the concrete Active claim `sbx` is resumed after a
Cold transition with its exact stable identity. -/
theorem claim_C2_witness :
    (ensureReady sampleSpec sampleEnv (teardown "sbx" sampleActive).1).1 =
      Except.ok { name := "sbx-http" } ∧
    (∃ w, (ensureReady sampleSpec sampleEnv
        (teardown "sbx" sampleActive).1).2.1.workload = some w ∧
      w.name = "sbx" ∧ w.uid = 42) := by
  have h := claim_C2 sampleSpec sampleEnv sampleActive sampleVolume
    sampleWorkload rfl rfl (by decide) rfl (by decide) rfl rfl rfl
  obtain ⟨w, hw1, hw2, hw3⟩ := h.2.2.2.1
  exact ⟨h.2.2.1, w, hw1, hw2, hw3⟩

/-- Claim C6: data written to the workspace before a Warm transition
(workload scaled to zero, or the workload instance deleted while claim
and volume remain) is present and unmodified after the Active
resumption, served from the retained volume, and no backup restore is
involved in the resumption. -/
theorem claim_C6 (spec : ClaimSpec) (env : Env) (s : ClaimState)
    (v : Volume) (w0 : Workload) (p d : String)
    (hv : s.volume = some v) (hvb : v.bound = true)
    (hvn : v.name = volumeName spec.name)
    (hw : s.workload = some w0)
    (hready : env.workloadBecomesReady = true)
    (hfile : readFile s p = some d) :
    (readFile (ensureReady spec env (scaleToZero s).1).2.1 p = some d ∧
     (ensureReady spec env (scaleToZero s).1).2.1.volume = s.volume ∧
     ∀ m, Action.restoreFromBackup m ∉
        (ensureReady spec env (scaleToZero s).1).2.2) ∧
    (readFile (ensureReady spec env (workloadTerminated s)).2.1 p = some d ∧
     (ensureReady spec env (workloadTerminated s)).2.1.volume = s.volume ∧
     ∀ m, Action.restoreFromBackup m ∉
        (ensureReady spec env (workloadTerminated s)).2.2) := by
  have hfl : v.files.lookup p = some d := by
    simpa [readFile, hv] using hfile
  have hs1 : (scaleToZero s).1 =
      { s with workload := some { w0 with replicas := 0, ready := false } } := by
    simp [scaleToZero, hw]
  have e1 := @ensureReady_scale spec env
    { s with workload := some { w0 with replicas := 0, ready := false } }
    v { w0 with replicas := 0, ready := false }
    (by simpa using hv) hvb (by simp) (by simp) hready
  have e2 := @ensureReady_recreate spec env (workloadTerminated s) v
    (by simpa [workloadTerminated] using hv) hvb hvn
    (by simp [workloadTerminated]) hready
  refine ⟨⟨?_, ?_, ?_⟩, ⟨?_, ?_, ?_⟩⟩
  · rw [hs1, e1]
    simp [readFile, touch, hv, hfl]
  · rw [hs1, e1]
    simp [touch]
  · rw [hs1, e1]
    simp
  · rw [e2]
    simp [readFile, touch, workloadTerminated, hv, hfl]
  · rw [e2]
    simp [touch, workloadTerminated]
  · rw [e2]
    simp

/-- Witness for C6: the concrete file of the Active claim `sbx` survives
a pod-termination Warm cycle. -/
theorem claim_C6_witness :
    readFile (ensureReady sampleSpec sampleEnv
        (workloadTerminated sampleActive)).2.1 "f.txt" = some "hello" := by
  have h := claim_C6 sampleSpec sampleEnv sampleActive sampleVolume
    sampleWorkload "f.txt" "hello" rfl rfl (by decide) rfl rfl (by decide)
  exact h.2.1

theorem consistent_destruct {spec : ClaimSpec} {s : ClaimState}
    (hc : consistent spec s = true) :
    ∃ v w, s.volume = some v ∧ v.bound = true ∧ v.name = volumeName spec.name ∧
      s.workload = some w ∧ w.name = spec.name ∧ 1 ≤ w.replicas ∧
      w.ready = true ∧
      s.endpoint = some { name := endpointName spec.name } := by
  cases hv : s.volume with
  | none => simp [consistent, hv] at hc
  | some v =>
      cases hw : s.workload with
      | none => simp [consistent, hv, hw] at hc
      | some w =>
          cases he : s.endpoint with
          | none => simp [consistent, hv, hw, he] at hc
          | some e =>
              simp [consistent, hv, hw, he] at hc
              obtain ⟨⟨⟨hvn, hvb⟩, ⟨hwn, hrep⟩, hwr⟩, hen⟩ := hc
              exact ⟨v, w, rfl, hvb, hvn, rfl, hwn, hrep, hwr,
                by cases e with | mk nm => simp_all⟩

/-- Claim C7: reconciliation is idempotent — over a claim whose Managed
Resource Set already matches its declared spec (volume bound, workload
active, endpoint present) a reconciliation pass returns the state
unchanged with an empty action log, and `ensure_ready` returns the
endpoint immediately with an empty log, leaving every Managed Resource
unchanged; in particular zero creation or deletion calls are performed. -/
theorem claim_C7 (spec : ClaimSpec) (env : Env) (s : ClaimState)
    (hc : consistent spec s = true) :
    reconcile spec env s = (s, []) ∧
    (ensureReady spec env s).1 = Except.ok { name := endpointName spec.name } ∧
    (ensureReady spec env s).2.2 = [] ∧
    (ensureReady spec env s).2.1.volume = s.volume ∧
    (ensureReady spec env s).2.1.workload = s.workload ∧
    (ensureReady spec env s).2.1.endpoint = s.endpoint ∧
    (ensureReady spec env s).2.1.backup = s.backup ∧
    (∀ a ∈ (reconcile spec env s).2, a.isChurn = false) ∧
    (∀ a ∈ (ensureReady spec env s).2.2, a.isChurn = false) := by
  obtain ⟨v, w, hv, hvb, hvn, hw, hwn, hrep, hwr, he⟩ := consistent_destruct hc
  have him := @ensureReady_immediate spec env s v w hv hvb hw ⟨hrep, hwr, he⟩
  refine ⟨by simp [reconcile, hc], ?_, ?_, ?_, ?_, ?_, ?_, ?_, ?_⟩
  · rw [him]
  · rw [him]
  · rw [him]; simp [touch]
  · rw [him]; simp [touch]
  · rw [him]; simp [touch]
  · rw [him]; simp [touch]
  · simp [reconcile, hc]
  · rw [him]; simp

/-- Witness for C7: reconciling the concrete consistent Active claim
`sbx` is a no-op with an empty action log. -/
theorem claim_C7_witness :
    reconcile sampleSpec sampleEnv sampleActive = (sampleActive, []) := by
  have h := claim_C7 sampleSpec sampleEnv sampleActive (by decide)
  exact h.1

/-- Claim C8: `ensure_ready` returns a working endpoint descriptor or a
typed error, never a partially-provisioned state as success — every
successful call leaves a bound volume, a ready workload at one replica
and the stable endpoint in place and returns the `{name}-http`
descriptor; and when the volume does not reach bound status within the
bounded wait window it fails with the typed `ProvisionTimeout` (being a
total function it cannot hang), leaves the state unchanged and never
creates the workload. -/
theorem claim_C8 :
    (∀ (spec : ClaimSpec) (env : Env) (s : ClaimState),
      s.volume = none → env.volumeBinds = false →
      (ensureReady spec env s).1 = Except.error LifecycleError.ProvisionTimeout ∧
      (ensureReady spec env s).2.1 = s ∧
      ∀ n, Action.createWorkload n ∉ (ensureReady spec env s).2.2) ∧
    (∀ (spec : ClaimSpec) (env : Env) (s : ClaimState) (ep : Endpoint),
      (ensureReady spec env s).1 = Except.ok ep →
      ep = { name := endpointName spec.name } ∧
      ∃ v w, (ensureReady spec env s).2.1.volume = some v ∧ v.bound = true ∧
        (ensureReady spec env s).2.1.workload = some w ∧ 1 ≤ w.replicas ∧
        w.ready = true ∧
        (ensureReady spec env s).2.1.endpoint =
          some { name := endpointName spec.name }) := by
  constructor
  · intro spec env s hv hnb
    have hp : provision spec env s =
        (Except.error LifecycleError.ProvisionTimeout,
         [Action.createVolume (volumeName spec.name) (volumeCapacityGi spec),
          Action.waitBound (volumeName spec.name)]) := by
      simp [provision, hnb]
    refine ⟨by simp [ensureReady, hv, hp], by simp [ensureReady, hv, hp], ?_⟩
    intro n
    simp [ensureReady, hv, hp]
  · intro spec env s ep hok
    cases hv : s.volume with
    | none =>
        rcases hp : provision spec env s with ⟨fst, acts⟩
        cases fst with
        | ok s1 =>
            have h1 : (provision spec env s).1 = Except.ok s1 := by rw [hp]
            obtain ⟨hb2, hw2, hshape⟩ := provision_ok_cases h1
            have hres : ensureReady spec env s =
                (Except.ok { name := endpointName spec.name },
                 touch s1 env.now, acts) := by
              simp [ensureReady, hv, hp]
            rw [hres] at hok ⊢
            cases hok
            subst hshape
            exact ⟨rfl,
              { name := volumeName spec.name, capacityGi := volumeCapacityGi spec,
                bound := true, files := s.backup.getD [] },
              { name := spec.name, uid := env.freshUid, replicas := 1,
                ready := true },
              by simp [touch], rfl, by simp [touch], by simp, rfl,
              by simp [touch]⟩
        | error e =>
            have hres : (ensureReady spec env s).1 = Except.error e := by
              simp [ensureReady, hv, hp]
            rw [hres] at hok
            cases hok
    | some v =>
        by_cases hvb : v.bound = true
        · cases hw : s.workload with
          | some w =>
              by_cases hcond : 1 ≤ w.replicas ∧ w.ready = true ∧
                  s.endpoint = some { name := endpointName spec.name }
              · rw [ensureReady_immediate hv hvb hw hcond] at hok ⊢
                cases hok
                exact ⟨rfl, v, w, by simp [touch, hv], hvb,
                  by simp [touch, hw], hcond.1, hcond.2.1,
                  by simp [touch, hcond.2.2]⟩
              · by_cases hr : env.workloadBecomesReady
                · rw [ensureReady_scale hv hvb hw hcond hr] at hok ⊢
                  cases hok
                  exact ⟨rfl, v, { w with replicas := 1, ready := true },
                    by simp [touch, hv], hvb, by simp [touch], by simp, rfl,
                    by simp [touch]⟩
                · have hres : (ensureReady spec env s).1 =
                      Except.error LifecycleError.ProvisionTimeout := by
                    simp [ensureReady, hv, hvb, hw, hcond,
                          eq_false_of_ne_true hr]
                  rw [hres] at hok
                  cases hok
          | none =>
              cases hcw : createWorkloadChecked s spec.name env.freshUid with
              | ok w' =>
                  obtain ⟨v', hv', hvb', hvn', rfl⟩ := createWorkloadChecked_ok hcw
                  have hvv : v' = v := by rw [hv] at hv'; exact (Option.some.inj hv').symm
                  subst hvv
                  by_cases hr : env.workloadBecomesReady
                  · rw [ensureReady_recreate hv hvb hvn' hw hr] at hok ⊢
                    cases hok
                    exact ⟨rfl, v',
                      { name := spec.name, uid := env.freshUid, replicas := 1,
                        ready := true },
                      by simp [touch, hv], hvb, by simp [touch], by simp, rfl,
                      by simp [touch]⟩
                  · have hres : (ensureReady spec env s).1 =
                        Except.error LifecycleError.ProvisionTimeout := by
                      simp [ensureReady, hv, hvb, hw, hcw,
                            eq_false_of_ne_true hr]
                    rw [hres] at hok
                    cases hok
              | error e =>
                  have hres : (ensureReady spec env s).1 = Except.error e := by
                    simp [ensureReady, hv, hvb, hw, hcw]
                  rw [hres] at hok
                  cases hok
        · have hres : (ensureReady spec env s).1 =
              Except.error LifecycleError.DependencyUnsatisfied := by
            simp [ensureReady, hv, eq_false_of_ne_true hvb]
          rw [hres] at hok
          cases hok

/-- Witness for C8: against the empty world with a volume that never
binds, `ensure_ready` fails with the typed `ProvisionTimeout`. -/
theorem claim_C8_witness :
    (ensureReady sampleSpec { sampleEnv with volumeBinds := false }
        initialState).1 = Except.error LifecycleError.ProvisionTimeout := by
  have h := claim_C8.1 sampleSpec { sampleEnv with volumeBinds := false }
    initialState rfl rfl
  exact h.1

/-- Witness for C4: deleting the concrete Active claim `sbx` reaches Cold
with only the backup surviving. -/
theorem claim_C4_witness :
    phase (teardown "sbx" sampleActive).1 = Phase.Cold ∧
    (teardown "sbx" sampleActive).1.volume = none ∧
    (teardown "sbx" sampleActive).1.backup = sampleActive.backup :=
  ⟨(claim_C4 "sbx" sampleActive).1, (claim_C4 "sbx" sampleActive).2.1,
   (claim_C4 "sbx" sampleActive).2.2.2.2.1⟩

/-- Claim C5: Cold→Active restore is best-effort with an asymmetric error
contract — a backup completed before the Cold transition is present in
the provisioned volume; with no backup, provisioning succeeds with a
fresh empty workspace; but a backup known to exist that cannot be read
fails that provisioning attempt with the typed `RestoreInconsistent`
while preserving the backup for retry. -/
theorem claim_C5 (spec : ClaimSpec) (env : Env) (s : ClaimState)
    (hb : env.volumeBinds = true) (hw : env.workloadBecomesReady = true) :
    (∀ data, s.backup = some data → env.restoreOk = true →
      ∃ s1 v, (provision spec env s).1 = Except.ok s1 ∧
        s1.volume = some v ∧ v.files = data) ∧
    (s.backup = none →
      ∃ s1 v, (provision spec env s).1 = Except.ok s1 ∧
        s1.volume = some v ∧ v.files = []) ∧
    (∀ data, s.backup = some data → env.restoreOk = false →
      (provision spec env s).1 =
        Except.error LifecycleError.RestoreInconsistent ∧
      (ensureReady spec env { s with volume := none, workload := none }).1 =
        Except.error LifecycleError.RestoreInconsistent ∧
      (ensureReady spec env
        { s with volume := none, workload := none }).2.1.backup = some data) := by
  refine ⟨?_, ?_, ?_⟩
  · intro data hbk hr
    rw [provision_spec_ok hb hr hw]
    exact ⟨_, _, rfl, rfl, by simp [hbk]⟩
  · intro hbk
    have hp : (provision spec env s).1 = Except.ok
        { s with volume := some { name := volumeName spec.name,
                                  capacityGi := volumeCapacityGi spec,
                                  bound := true, files := [] },
                 workload := some { name := spec.name, uid := env.freshUid,
                                    replicas := 1, ready := true },
                 endpoint := some { name := endpointName spec.name } } := by
      simp [provision, hb, hbk, hw, createWorkloadChecked]
    exact ⟨_, _, hp, rfl, rfl⟩
  · intro data hbk hrf
    have hp2 : provision spec env
        { volume := none, workload := none, endpoint := s.endpoint,
          lastActiveAt := s.lastActiveAt, backup := some data } =
        (Except.error LifecycleError.RestoreInconsistent,
         [Action.createVolume (volumeName spec.name) (volumeCapacityGi spec),
          Action.waitBound (volumeName spec.name),
          Action.restoreFromBackup (volumeName spec.name)]) := by
      simp [provision, hb, hrf]
    refine ⟨by simp [provision, hb, hbk, hrf], ?_, ?_⟩
    · simp [ensureReady, hbk, hp2]
    · simp [ensureReady, hbk, hp2]

/-- Witness for C5: a completed backup is restored into the provisioned
volume of the concrete claim `sbx`. -/
theorem claim_C5_witness :
    ∃ s1 v, (provision sampleSpec sampleEnv
        { initialState with backup := some [("a.txt", "1")] }).1 =
      Except.ok s1 ∧ s1.volume = some v ∧ v.files = [("a.txt", "1")] := by
  have h := claim_C5 sampleSpec sampleEnv
    { initialState with backup := some [("a.txt", "1")] } rfl rfl
  exact h.1 [("a.txt", "1")] rfl rfl

/-- Claim C9: resumption latency is asymmetric by design — a Warm→Active
resumption performs only the scale-up and the readiness wait, so its
duration is exactly the readiness-probe time (under 20 seconds whenever
the probe is, with no restore term), while a Cold→Active resumption with
a backup to restore stages the restore before readiness, so its duration
contains the restore time and is at least 20 seconds whenever the
restore is. -/
theorem claim_C9 :
    (∀ (spec : ClaimSpec) (env : Env) (s : ClaimState) (v : Volume)
        (w : Workload),
      s.volume = some v → v.bound = true → s.workload = some w →
      w.replicas = 0 → env.workloadBecomesReady = true →
      (ensureReady spec env s).2.2 =
        [Action.scaleWorkload spec.name 1, Action.waitReady spec.name] ∧
      duration env (ensureReady spec env s).2.2 = env.probeSeconds ∧
      (env.probeSeconds < 20 →
        duration env (ensureReady spec env s).2.2 < 20)) ∧
    (∀ (spec : ClaimSpec) (env : Env) (s : ClaimState)
        (data : List (String × String)),
      s.volume = none → s.backup = some data → env.volumeBinds = true →
      env.restoreOk = true → env.workloadBecomesReady = true →
      (ensureReady spec env s).2.2 =
        [Action.createVolume (volumeName spec.name) (volumeCapacityGi spec),
         Action.waitBound (volumeName spec.name),
         Action.restoreFromBackup (volumeName spec.name),
         Action.createWorkload spec.name,
         Action.createEndpoint (endpointName spec.name),
         Action.waitReady spec.name] ∧
      duration env (ensureReady spec env s).2.2 =
        env.bindSeconds + env.restoreSeconds + env.probeSeconds ∧
      (20 ≤ env.restoreSeconds →
        20 ≤ duration env (ensureReady spec env s).2.2)) := by
  constructor
  · intro spec env s v w hv hvb hw hrep hready
    have e1 := @ensureReady_scale spec env s v w
      hv hvb hw (by simp [hrep]) hready
    have hlog : (ensureReady spec env s).2.2 =
        [Action.scaleWorkload spec.name 1, Action.waitReady spec.name] := by
      rw [e1]
    have hd : duration env (ensureReady spec env s).2.2 = env.probeSeconds := by
      rw [hlog]; simp [duration, actionSeconds]
    exact ⟨hlog, hd, fun h20 => by rw [hd]; exact h20⟩
  · intro spec env s data hv hbk hb hr hready
    have e3 := @ensureReady_cold spec env s hv hb hr hready
    have hlog : (ensureReady spec env s).2.2 =
        [Action.createVolume (volumeName spec.name) (volumeCapacityGi spec),
         Action.waitBound (volumeName spec.name),
         Action.restoreFromBackup (volumeName spec.name),
         Action.createWorkload spec.name,
         Action.createEndpoint (endpointName spec.name),
         Action.waitReady spec.name] := by
      rw [e3]; simp [hbk]
    have hd : duration env (ensureReady spec env s).2.2 =
        env.bindSeconds + env.restoreSeconds + env.probeSeconds := by
      rw [hlog]; simp [duration, actionSeconds]; ring
    exact ⟨hlog, hd, fun h20 => by rw [hd]; omega⟩

/-- A concrete Warm (scaled to zero) claim state used by the witnesses. -/
def sampleWarm : ClaimState :=
  { sampleActive with
      workload := some { name := "sbx", uid := 7, replicas := 0, ready := false } }

/-- A concrete Cold world with a surviving backup, used by the witnesses. -/
def sampleColdBackup : ClaimState :=
  { initialState with backup := some [("a.txt", "1")] }

/-- Witness for C9: with a 5-second probe and a 30-second restore the
concrete Warm resumption takes under 20 seconds and the concrete Cold
resumption at least 20. -/
theorem claim_C9_witness :
    duration sampleEnv (ensureReady sampleSpec sampleEnv sampleWarm).2.2 < 20 ∧
    20 ≤ duration sampleEnv
      (ensureReady sampleSpec sampleEnv sampleColdBackup).2.2 := by
  constructor
  · exact (claim_C9.1 sampleSpec sampleEnv sampleWarm sampleVolume
      { name := "sbx", uid := 7, replicas := 0, ready := false }
      rfl rfl rfl rfl rfl).2.2 (by decide)
  · exact (claim_C9.2 sampleSpec sampleEnv sampleColdBackup [("a.txt", "1")]
      rfl rfl rfl rfl rfl).2.2 (by decide)

theorem runCycles_nil (spec : ClaimSpec) (env : Env) (s : ClaimState) :
    runCycles spec env [] s = s := rfl

theorem runCycles_cons (spec : ClaimSpec) (env : Env) (pd : String × String)
    (rest : List (String × String)) (s : ClaimState) :
    runCycles spec env (pd :: rest) s =
      runCycles spec env rest (warmCycle spec env pd s) := rfl

theorem warmCycle_eq (spec : ClaimSpec) (env : Env) {s : ClaimState}
    {v : Volume} (hv : s.volume = some v) (hvb : v.bound = true)
    (hvn : v.name = volumeName spec.name)
    (hready : env.workloadBecomesReady = true) (pd : String × String) :
    warmCycle spec env pd s =
      { volume := some { v with files := (pd.1, pd.2) :: v.files },
        workload := some { name := spec.name, uid := env.freshUid,
                           replicas := 1, ready := true },
        endpoint := some { name := endpointName spec.name },
        lastActiveAt := some env.now,
        backup := some ((pd.1, pd.2) :: v.files) } := by
  have h3 : workloadTerminated (sidecarBackup (writeFile s pd.1 pd.2)) =
      { volume := some { v with files := (pd.1, pd.2) :: v.files },
        workload := none,
        endpoint := s.endpoint,
        lastActiveAt := s.lastActiveAt,
        backup := some ((pd.1, pd.2) :: v.files) } := by
    simp [writeFile, hv, sidecarBackup, workloadTerminated]
  have e := @ensureReady_recreate spec env
    { volume := some { v with files := (pd.1, pd.2) :: v.files },
      workload := none, endpoint := s.endpoint,
      lastActiveAt := s.lastActiveAt,
      backup := some ((pd.1, pd.2) :: v.files) }
    { v with files := (pd.1, pd.2) :: v.files }
    rfl (by simpa using hvb) (by simpa using hvn) rfl hready
  unfold warmCycle
  rw [h3, e]
  simp [touch]

theorem runCycles_master (spec : ClaimSpec) (env : Env)
    (hready : env.workloadBecomesReady = true) :
    ∀ (writes : List (String × String)) (s : ClaimState) (v : Volume),
      s.volume = some v → v.bound = true → v.name = volumeName spec.name →
      ∃ v', (runCycles spec env writes s).volume = some v' ∧
        v'.bound = true ∧ v'.name = volumeName spec.name ∧
        (∀ p, p ∉ writes.map Prod.fst →
            v'.files.lookup p = v.files.lookup p) ∧
        ((writes.map Prod.fst).Nodup →
            ∀ pd ∈ writes, v'.files.lookup pd.1 = some pd.2) ∧
        (writes ≠ [] →
          (runCycles spec env writes s).backup = some v'.files ∧
          (runCycles spec env writes s).workload =
            some { name := spec.name, uid := env.freshUid, replicas := 1,
                   ready := true }) := by
  intro writes
  induction writes with
  | nil =>
      intro s v hv hvb hvn
      refine ⟨v, by simpa [runCycles_nil] using hv, hvb, hvn, ?_, ?_, ?_⟩
      · intro p _
        rfl
      · intro _ pd hpd
        cases hpd
      · intro hne
        exact absurd rfl hne
  | cons pd rest ih =>
      intro s v hv hvb hvn
      have hcy := warmCycle_eq spec env hv hvb hvn hready pd
      have hv1 : (warmCycle spec env pd s).volume =
          some { v with files := (pd.1, pd.2) :: v.files } := by
        rw [hcy]
      obtain ⟨v', hvol, hvb', hvn', huntouched, hnod, hlast⟩ :=
        ih (warmCycle spec env pd s)
          { v with files := (pd.1, pd.2) :: v.files }
          hv1 (by simpa using hvb) (by simpa using hvn)
      refine ⟨v', by simpa [runCycles_cons] using hvol, hvb', hvn', ?_, ?_, ?_⟩
      · intro p hp
        have hp1 : p ≠ pd.1 := by
          intro hcontra
          exact hp (by simp [hcontra])
        have hp2 : p ∉ rest.map Prod.fst := by
          intro hcontra
          exact hp (by simp [hcontra])
        rw [huntouched p hp2]
        simpa using lookup_cons_ne pd.2 v.files hp1
      · intro hnodup pd' hpd'
        rw [List.map_cons, List.nodup_cons] at hnodup
        have hnd1 : pd.1 ∉ rest.map Prod.fst := hnodup.1
        have hnd2 : (rest.map Prod.fst).Nodup := hnodup.2
        cases hpd' with
        | head =>
            rw [huntouched pd.1 hnd1]
            simpa using lookup_cons_self pd.1 pd.2 v.files
        | tail _ hmem =>
            exact hnod hnd2 pd' hmem
      · intro _
        cases hrest : rest with
        | nil =>
            have hveq : v' = { v with files := (pd.1, pd.2) :: v.files } := by
              rw [hrest] at hvol
              rw [runCycles_nil] at hvol
              rw [hv1] at hvol
              exact (Option.some.inj hvol).symm
            constructor
            · rw [runCycles_cons, runCycles_nil, hcy, hveq]
            · rw [runCycles_cons, runCycles_nil, hcy]
        | cons q qs =>
            have hl := hlast (by rw [hrest]; simp)
            rw [hrest] at hl
            exact ⟨by rw [runCycles_cons]; exact hl.1,
                   by rw [runCycles_cons]; exact hl.2⟩

/-- Claim C10: across any number of consecutive Warm resurrection cycles
of the same claim (workload instance deleted and recreated each cycle
while claim and volume are retained, the sidecar snapshotting the
workspace each cycle), the workspace accumulates monotonically — every
file written in any earlier cycle, with cycle-distinct paths, is
readable with its original contents after the final cycle both from the
volume and from the object-storage backup — and each cycle preserves the
exact workload instance name. -/
theorem claim_C10 (spec : ClaimSpec) (env : Env) (s : ClaimState)
    (v : Volume) (w0 : Workload) (writes : List (String × String))
    (hv : s.volume = some v) (hvb : v.bound = true)
    (hvn : v.name = volumeName spec.name)
    (hw : s.workload = some w0) (hwn : w0.name = spec.name)
    (hready : env.workloadBecomesReady = true)
    (hnodup : (writes.map Prod.fst).Nodup) :
    (∀ pd ∈ writes, readFile (runCycles spec env writes s) pd.1 = some pd.2) ∧
    (∀ pd ∈ writes,
        readBackup (runCycles spec env writes s) pd.1 = some pd.2) ∧
    (∃ w, (runCycles spec env writes s).workload = some w ∧
        w.name = w0.name) := by
  obtain ⟨v', hvol, hvb', hvn', huntouched, hnod, hlast⟩ :=
    runCycles_master spec env hready writes s v hv hvb hvn
  refine ⟨?_, ?_, ?_⟩
  · intro pd hpd
    rw [readFile, hvol]
    exact hnod hnodup pd hpd
  · intro pd hpd
    have hne : writes ≠ [] := List.ne_nil_of_mem hpd
    rw [readBackup, (hlast hne).1]
    exact hnod hnodup pd hpd
  · cases hws : writes with
    | nil =>
        exact ⟨w0, by simpa [runCycles_nil] using hw, rfl⟩
    | cons q qs =>
        refine ⟨{ name := spec.name, uid := env.freshUid, replicas := 1,
                  ready := true }, ?_, hwn.symm⟩
        rw [hws] at hlast
        exact (hlast (by simp)).2

/-- Witness for C10: two concrete cycles over the Active claim `sbx`
leave both written files readable after the final resurrection. -/
theorem claim_C10_witness :
    readFile (runCycles sampleSpec sampleEnv [("a.txt", "1"), ("b.txt", "2")]
      sampleActive) "b.txt" = some "2" := by
  have h := claim_C10 sampleSpec sampleEnv sampleActive sampleVolume
    sampleWorkload [("a.txt", "1"), ("b.txt", "2")] rfl rfl (by decide) rfl
    (by decide) rfl (by decide)
  exact h.1 ("b.txt", "2") (by decide)

end Sandbox
